import Mathlib

/-!
Verification development for `QhX/iparallelization_solver.py` (class
`IParallelSolver`): a pool of worker processes drains a shared task queue
(`set_ids_`), runs a per-task pipeline (`process_wrapper`, lines 52-86) for
each dequeued set ID, optionally pushes the aggregated row to a shared
result queue (`results_`), and the orchestrator (`process_ids`, lines
88-116) seeds the queue, spawns and joins the workers and finally calls
`maybe_save_results`.

The embedding has three layers:
* the per-task pipeline (`tryBody`, `finallyBody`, `runTask`) translating
  the try/except/finally structure of `process_wrapper` lines 69-86, with
  the overridable hook methods abstracted as a `Hooks` record of
  `Except`-valued functions (the base class's hooks only print and never
  raise; subclasses override them, so theorems quantify over all `Hooks`);
* a sequential worker loop (`process_wrapper`) for per-worker claims,
  with a fault oracle for the `set_ids_.get()` call of line 63;
* a small-step interleaving semantics (`Step`, `Reach`) of the whole pool
  for the concurrency claims, in which the blocking `Queue.get()` of
  line 63 is modelled faithfully: a worker that has passed the
  `not empty()` check has no transition while the queue is empty.
-/

/-- A `ProcessResult` (return value of `get_process_function_result`) is
opaque to the solver; it is only ever passed to
`aggregate_process_function_result`.  Modelled as a `String`. -/
abbrev ProcessResult := String

/-- The overridable hook methods of `IParallelSolver` that the pipeline of
`process_wrapper` invokes, each modelled as a function that either returns
normally (`Except.ok`) or raises (`Except.error ()`).  `maybe_stop_logging`
takes no argument in the source; its outcome is indexed here by the set ID
of the pipeline invocation during which it is called, and likewise
`maybe_save_local_results` may fail depending on its two arguments. -/
structure Hooks where
  maybe_begin_logging : String → Except Unit Unit
  get_process_function_result : String → Except Unit ProcessResult
  aggregate_process_function_result : ProcessResult → Except Unit String
  maybe_stop_logging : String → Except Unit Unit
  maybe_save_local_results : String → String → Except Unit Unit

/-- Outcome of the `try` block of `process_wrapper` lines 69-77:
which steps were invoked, the row pushed to `results_` (if any), the value
of the local variable `res_string` after the block, and whether the
`except` handler of line 78 ran. -/
structure TryOutcome where
  computeInvoked : Bool
  aggregateInvoked : Bool
  pushed : Option String
  res_string : String
  caught : Bool
deriving DecidableEq

/-- The `try` block of `process_wrapper` lines 69-77.  `res_string` is
initialised to `""` on line 68 before the block; any exception inside the
block leaves it at `""` because the assignment on line 72 is the only one.
The push to `results_` on line 75 happens only when `save_all_results_`
(`save`) is set, and only after `maybe_begin_logging`,
`get_process_function_result` and `aggregate_process_function_result` all
returned normally. -/
def tryBody (h : Hooks) (save : Bool) (sid : String) : TryOutcome :=
  match h.maybe_begin_logging sid with
  | .error _ => ⟨false, false, none, "", true⟩
  | .ok _ =>
    match h.get_process_function_result sid with
    | .error _ => ⟨true, false, none, "", true⟩
    | .ok result =>
      match h.aggregate_process_function_result result with
      | .error _ => ⟨true, true, none, "", true⟩
      | .ok rs => ⟨true, true, if save then some rs else none, rs, false⟩

/-- Outcome of the `finally` block of `process_wrapper` lines 79-86:
`maybe_stop_logging` is always invoked; `maybe_save_local_results` is
invoked (with the current `res_string`) only if `maybe_stop_logging`
returned normally, because both calls sit inside one `try` whose handler
(line 85) catches the first exception of either. -/
structure FinOutcome where
  stopInvoked : Bool
  persistInvoked : Option String
  caught : Bool
deriving DecidableEq

/-- The `finally` block of `process_wrapper` lines 79-86. -/
def finallyBody (h : Hooks) (sid : String) (res_string : String) : FinOutcome :=
  match h.maybe_stop_logging sid with
  | .error _ => ⟨true, none, true⟩
  | .ok _ =>
    match h.maybe_save_local_results sid res_string with
    | .error _ => ⟨true, some res_string, true⟩
    | .ok _ => ⟨true, some res_string, false⟩

/-- Everything observable about one execution of the loop body of
`process_wrapper` (lines 62-86) after the `set_ids_.get()` succeeded. -/
structure TaskEffects where
  computeInvoked : Bool
  aggregateInvoked : Bool
  pushed : Option String
  res_string : String
  bodyCaught : Bool
  stopInvoked : Bool
  persistInvoked : Option String
  finallyCaught : Bool
deriving DecidableEq

/-- One execution of the per-task pipeline (lines 68-86) for a dequeued
`sid`: the `try` block, whose exception (if any) is consumed by the
`except` of line 78, followed by the `finally` block, whose exception (if
any) is consumed by the `except` of line 85.  Total: no exception escapes
to the worker loop. -/
def runTask (h : Hooks) (save : Bool) (sid : String) : TaskEffects :=
  let t := tryBody h save sid
  let f := finallyBody h sid t.res_string
  ⟨t.computeInvoked, t.aggregateInvoked, t.pushed, t.res_string, t.caught,
   f.stopInvoked, f.persistInvoked, f.caught⟩

/-- A task "succeeds" when `maybe_begin_logging`,
`get_process_function_result` and `aggregate_process_function_result` all
return normally for its set ID, i.e. when lines 69-72 run to completion. -/
def taskSucceeds (h : Hooks) (sid : String) : Bool :=
  match h.maybe_begin_logging sid with
  | .error _ => false
  | .ok _ =>
    match h.get_process_function_result sid with
    | .error _ => false
    | .ok result =>
      match h.aggregate_process_function_result result with
      | .error _ => false
      | .ok _ => true

/-- Hooks that never raise: the behaviour of the base class itself, whose
hook methods only print.  `get_process_function_result` returns the set ID
and `aggregate_process_function_result` is the identity, so the pushed row
for set ID `sid` is `sid` itself. -/
def noFailHooks : Hooks where
  maybe_begin_logging := fun _ => .ok ()
  get_process_function_result := fun sid => .ok sid
  aggregate_process_function_result := fun r => .ok r
  maybe_stop_logging := fun _ => .ok ()
  maybe_save_local_results := fun _ _ => .ok ()

/-- Hooks whose `maybe_begin_logging` always raises, all other hooks
returning normally. -/
def beginFailHooks : Hooks where
  maybe_begin_logging := fun _ => .error ()
  get_process_function_result := fun sid => .ok sid
  aggregate_process_function_result := fun r => .ok r
  maybe_stop_logging := fun _ => .ok ()
  maybe_save_local_results := fun _ _ => .ok ()

/-- Hooks whose `maybe_stop_logging` always raises, all other hooks
returning normally. -/
def stopFailHooks : Hooks where
  maybe_begin_logging := fun _ => .ok ()
  get_process_function_result := fun sid => .ok sid
  aggregate_process_function_result := fun r => .ok r
  maybe_stop_logging := fun _ => .error ()
  maybe_save_local_results := fun _ _ => .ok ()

/-- Hooks whose `get_process_function_result` always raises: every task
fails at the compute step. -/
def computeFailHooks : Hooks where
  maybe_begin_logging := fun _ => .ok ()
  get_process_function_result := fun _ => .error ()
  aggregate_process_function_result := fun r => .ok r
  maybe_stop_logging := fun _ => .ok ()
  maybe_save_local_results := fun _ _ => .ok ()

/-- Observable outcome of one worker's whole `process_wrapper` run:
the set IDs whose pipeline body ran (in order), the per-task effects, the
rows this worker pushed to `results_`, and whether the loop exited through
the `break` of line 67 (a `set_ids_.get()` exception). -/
structure WrapperLog where
  tasksRun : List String
  taskLog : List TaskEffects
  pushedRows : List String
  broke : Bool
deriving DecidableEq

/-- A single worker's `process_wrapper` (lines 52-86) run sequentially
over the remaining queue contents, faithful to the loop structure:
`while not set_ids_.empty()` is the match on the list; `set_ids_.get()`
may raise, governed by the oracle `getFault` indexed by the count `k` of
`get` calls made so far, in which case the handler of lines 65-67 prints
and `break`s; otherwise the dequeued head is run through `runTask` and the
loop continues on the tail. -/
def process_wrapper (h : Hooks) (getFault : Nat → Bool) (save : Bool) :
    List String → Nat → WrapperLog
  | [], _ => ⟨[], [], [], false⟩
  | sid :: rest, k =>
    if getFault k then ⟨[], [], [], true⟩
    else
      let t := runTask h save sid
      let l := process_wrapper h getFault save rest (k + 1)
      ⟨sid :: l.tasksRun, t :: l.taskLog, t.pushed.toList ++ l.pushedRows, l.broke⟩

/-- Program counter of one worker process inside `process_wrapper`:
at the `while not set_ids_.empty()` check of line 61 (`atCheck`), past a
successful non-emptiness check and about to call the blocking
`set_ids_.get()` of line 63 (`atGet`), holding a dequeued set ID and about
to run the pipeline body of lines 68-86 (`atBody`), or returned
(`finished`, the loop exited). -/
inductive WStatus
  | atCheck
  | atGet
  | atBody (sid : String)
  | finished
deriving DecidableEq

/-- One worker process: its program counter and (as history, for stating
exactly-once processing) the set IDs whose pipeline body it has run. -/
structure Worker where
  status : WStatus
  processed : List String
deriving DecidableEq

/-- Shared state of one `process_ids` run: the task queue `set_ids_`
(a FIFO, head popped first), the result queue `results_`, and the pool. -/
structure GState where
  queue : List String
  results : List String
  workers : List Worker
deriving DecidableEq

/-- Interleaving small-step semantics of the worker pool.  Each step is one
shared-queue-visible action of one worker `i`:

* `check_nonempty` / `check_empty`: the `set_ids_.empty()` call of
  line 61 observes the queue's state at this instant;
* `get_item`: the blocking `set_ids_.get()` of line 63 returns the head of
  a non-empty queue.  There is deliberately *no* transition for a worker
  at `atGet` while the queue is empty: `Queue.get()` is called with its
  default `block=True` and no timeout, so such a worker stays blocked —
  this is exactly the emptiness-check/pop race of the source;
* `run_body`: the pipeline body of lines 68-86 runs (`runTask`); it
  touches shared state only through the `results_.put` of line 75, so it
  is one step; the worker returns to the loop head.

The queue-retrieval fault of lines 65-67 is modelled in the sequential
`process_wrapper` above; here queue operations behave normally. -/
inductive Step (h : Hooks) (save : Bool) : GState → GState → Prop
  | check_nonempty (s : GState) (i : Nat) (w : Worker)
      (hw : s.workers[i]? = some w) (hst : w.status = .atCheck) (hq : s.queue ≠ []) :
      Step h save s { s with workers := s.workers.set i { w with status := .atGet } }
  | check_empty (s : GState) (i : Nat) (w : Worker)
      (hw : s.workers[i]? = some w) (hst : w.status = .atCheck) (hq : s.queue = []) :
      Step h save s { s with workers := s.workers.set i { w with status := .finished } }
  | get_item (s : GState) (i : Nat) (w : Worker) (x : String) (q : List String)
      (hw : s.workers[i]? = some w) (hst : w.status = .atGet) (hq : s.queue = x :: q) :
      Step h save s { queue := q, results := s.results,
                      workers := s.workers.set i { w with status := .atBody x } }
  | run_body (s : GState) (i : Nat) (w : Worker) (sid : String)
      (hw : s.workers[i]? = some w) (hst : w.status = .atBody sid) :
      Step h save s { queue := s.queue,
                      results := s.results ++ (runTask h save sid).pushed.toList,
                      workers := s.workers.set i
                        { status := .atCheck, processed := w.processed ++ [sid] } }

/-- Zero or more interleaved steps of the pool. -/
def Reach (h : Hooks) (save : Bool) : GState → GState → Prop :=
  Relation.ReflTransGen (Step h save)

/-- The state right after `process_ids` lines 100-108: the task queue
seeded with `set_ids` in order (lines 101-103), the result queue empty,
and `num_workers` freshly started workers (lines 106-108), each at the
loop head with an empty history. -/
def initState (ids : List String) (n : Nat) : GState :=
  { queue := ids, results := [], workers := List.replicate n ⟨.atCheck, []⟩ }

/-- All workers have returned from `process_wrapper`: the join barrier of
lines 111-112 has been passed. -/
def allDone (s : GState) : Prop := ∀ w ∈ s.workers, w.status = .finished

instance (s : GState) : Decidable (allDone s) := by
  unfold allDone; infer_instance

/-- The set IDs a worker currently holds dequeued but not yet fully
processed (at most one). -/
def statusLoad : WStatus → Multiset String
  | .atBody sid => {sid}
  | _ => 0

/-- A worker's share of the seeded set IDs: the one it may be holding plus
its processing history. -/
def contrib (w : Worker) : Multiset String := statusLoad w.status + ↑w.processed

/-- The seeded set IDs, wherever they currently are: still queued, held by
a worker, or already processed. -/
def load (s : GState) : Multiset String :=
  ↑s.queue + (s.workers.map contrib).sum

/-- Safety invariant: once any worker has returned (which requires a
moment at which it observed the queue empty), the queue is empty — the
queue is never refilled after seeding. -/
def DoneEmpty (s : GState) : Prop :=
  (∃ w ∈ s.workers, w.status = .finished) → s.queue = []

/-- The state reached by: both workers pass the `not set_ids_.empty()`
check while `["a"]` is queued; worker 0 wins the race, dequeues `"a"`,
processes it and returns; worker 1 is left inside the blocking
`set_ids_.get()` with the queue empty. -/
def deadState : GState := ⟨[], [], [⟨.finished, ["a"]⟩, ⟨.atGet, []⟩]⟩

/-- The multiset of all set IDs processed so far, across the pool. -/
def processedSum (s : GState) : Multiset String :=
  (s.workers.map fun w => (↑w.processed : Multiset String)).sum

/-- Default number of worker processes (line 25 of the source). -/
def DEFAULT_NUM_WORKERS : Nat := 4

/-- The state of an `IParallelSolver` object: the fields assigned in
`__init__` (lines 46-50). -/
structure IParallelSolver where
  num_workers : Nat
  results_ : List String
  set_ids_ : List String
  save_all_results_ : Bool
deriving DecidableEq

/-- `IParallelSolver.__init__` (lines 38-50): `num_workers` defaults to
`DEFAULT_NUM_WORKERS`, both queues start empty, and the save flag starts
false. -/
def IParallelSolver.init (num_workers : Nat := DEFAULT_NUM_WORKERS) :
    IParallelSolver :=
  { num_workers := num_workers, results_ := [], set_ids_ := [],
    save_all_results_ := false }

/-- Line 98 of `process_ids`:
`self.save_all_results_ = results_file is not None`. -/
def IParallelSolver.setSaveMode (s : IParallelSolver)
    (results_file : Option String) : IParallelSolver :=
  { s with save_all_results_ := results_file.isSome }

/-- Modelled from the spec: the column header line of the unified
artifact.  The base class's `maybe_save_results` body is a placeholder
("# Placeholder for saving logic"); the real writer is
`QhX/parallelization_solver.py`, which is not among the reviewed sources.
Per the spec the artifact starts with "a column header line"; the
concrete text is the one the repository's test expects. -/
def resultHeader : String :=
  "ID,Sampling_1,Sampling_2,Common period (Band1 & Band2),Upper error bound,Lower error bound,Significance,Band1-Band2"

/-- Modelled from the spec: `maybe_save_results(results_file)`, called on
line 115 after the join barrier.  When `results_file` is not None it
drains the result queue and writes all collected rows to that file in a
single pass preceded by the column header line (the header alone when no
rows were produced); when `results_file` is None nothing is written.  The
unified artifact is modelled as the written file's name and lines. -/
def maybe_save_results (results_file : Option String) (rows : List String) :
    Option (String × List String) :=
  match results_file with
  | some f => some (f, resultHeader :: rows)
  | none => none

/-- One complete `process_ids(set_ids, results_file)` call (lines
88-116) on a solver with `n` workers: line 98 sets the save flag to
`results_file is not None`, lines 101-103 seed the task queue, lines
106-112 spawn the workers and block until all have returned (`allDone`),
and line 115 hands the drained result queue to `maybe_save_results`. -/
def ProcessIdsRun (h : Hooks) (n : Nat) (ids : List String)
    (results_file : Option String) (final : GState)
    (artifact : Option (String × List String)) : Prop :=
  Reach h ((IParallelSolver.init n).setSaveMode results_file).save_all_results_
      (initState ids n) final ∧
  allDone final ∧
  artifact = maybe_save_results results_file final.results

lemma map_sum_set {α M : Type} [AddCommMonoid M] (f : α → M) :
    ∀ (l : List α) (i : Nat) (a b : α), l[i]? = some a →
      ((l.set i b).map f).sum + f a = (l.map f).sum + f b := by
  intro l
  induction l with
  | nil => intro i a b hget; simp at hget
  | cons x t ih =>
    intro i a b hget
    cases i with
    | zero =>
      simp only [List.getElem?_cons_zero, Option.some.injEq] at hget
      subst hget
      simp only [List.set_cons_zero, List.map_cons, List.sum_cons]
      abel
    | succ j =>
      simp only [List.getElem?_cons_succ] at hget
      simp only [List.set_cons_succ, List.map_cons, List.sum_cons]
      rw [add_assoc, add_assoc, ih j a b hget]

@[simp] lemma statusLoad_atCheck : statusLoad .atCheck = 0 := rfl

@[simp] lemma statusLoad_atGet : statusLoad .atGet = 0 := rfl

@[simp] lemma statusLoad_finished : statusLoad .finished = 0 := rfl

@[simp] lemma statusLoad_atBody (sid : String) : statusLoad (.atBody sid) = {sid} := rfl

lemma step_load {h : Hooks} {save : Bool} {s s' : GState}
    (hs : Step h save s s') : load s' = load s := by
  cases hs with
  | check_nonempty i w hw hst hq =>
    have hmap := map_sum_set contrib s.workers i w { w with status := .atGet } hw
    have hc : contrib { w with status := .atGet } = contrib w := by
      simp [contrib, hst]
    rw [hc] at hmap
    simp only [load]
    rw [add_right_cancel hmap]
  | check_empty i w hw hst hq =>
    have hmap := map_sum_set contrib s.workers i w { w with status := .finished } hw
    have hc : contrib { w with status := .finished } = contrib w := by
      simp [contrib, hst]
    rw [hc] at hmap
    simp only [load]
    rw [add_right_cancel hmap]
  | get_item i w x q hw hst hq =>
    have hmap := map_sum_set contrib s.workers i w { w with status := .atBody x } hw
    have hc : contrib { w with status := .atBody x } = {x} + contrib w := by
      simp [contrib, hst]
    rw [hc, ← add_assoc] at hmap
    have hsum := add_right_cancel hmap
    simp only [load, hq, hsum]
    have hcons : (↑(x :: q) : Multiset String) = {x} + ↑q := by simp
    rw [hcons]
    abel
  | run_body i w sid hw hst =>
    have hmap := map_sum_set contrib s.workers i w
      ⟨.atCheck, w.processed ++ [sid]⟩ hw
    have hc : contrib ⟨.atCheck, w.processed ++ [sid]⟩ = contrib w := by
      simp [contrib, hst]
    rw [hc] at hmap
    simp only [load]
    rw [add_right_cancel hmap]

lemma reach_load {h : Hooks} {save : Bool} {s s' : GState}
    (hr : Reach h save s s') : load s' = load s := by
  induction hr with
  | refl => rfl
  | tail _ hstep ih => rw [step_load hstep, ih]

lemma step_doneEmpty {h : Hooks} {save : Bool} {s s' : GState}
    (hs : Step h save s s') (hI : DoneEmpty s) : DoneEmpty s' := by
  cases hs with
  | check_nonempty i w hw hst hq =>
    intro hex
    obtain ⟨w', hw', hfin⟩ := hex
    rcases List.mem_or_eq_of_mem_set hw' with hmem | heq
    · exact absurd (hI ⟨w', hmem, hfin⟩) hq
    · subst heq; simp at hfin
  | check_empty i w hw hst hq =>
    intro _; exact hq
  | get_item i w x q hw hst hq =>
    intro hex
    obtain ⟨w', hw', hfin⟩ := hex
    rcases List.mem_or_eq_of_mem_set hw' with hmem | heq
    · have := hI ⟨w', hmem, hfin⟩
      rw [this] at hq
      exact absurd hq (by simp)
    · subst heq; simp at hfin
  | run_body i w sid hw hst =>
    intro hex
    obtain ⟨w', hw', hfin⟩ := hex
    rcases List.mem_or_eq_of_mem_set hw' with hmem | heq
    · exact hI ⟨w', hmem, hfin⟩
    · subst heq; simp at hfin

lemma reach_doneEmpty {h : Hooks} {save : Bool} {s s' : GState}
    (hr : Reach h save s s') (hI : DoneEmpty s) : DoneEmpty s' := by
  induction hr with
  | refl => exact hI
  | tail _ hstep ih => exact step_doneEmpty hstep ih

lemma step_workers_length {h : Hooks} {save : Bool} {s s' : GState}
    (hs : Step h save s s') : s'.workers.length = s.workers.length := by
  cases hs <;> simp

lemma reach_workers_length {h : Hooks} {save : Bool} {s s' : GState}
    (hr : Reach h save s s') : s'.workers.length = s.workers.length := by
  induction hr with
  | refl => rfl
  | tail _ hstep ih => rw [step_workers_length hstep, ih]

lemma initState_doneEmpty (ids : List String) (n : Nat) :
    DoneEmpty (initState ids n) := by
  intro hex
  obtain ⟨w, hw, hfin⟩ := hex
  have := List.eq_of_mem_replicate hw
  subst this
  simp at hfin

lemma initState_load (ids : List String) (n : Nat) :
    load (initState ids n) = ↑ids := by
  simp [load, initState, contrib, List.map_replicate]

/-- After a complete run (`allDone`, a non-empty pool), the queue has been
fully drained and the concatenation of the workers' processing histories
is a permutation (as a multiset) of the seeded set IDs. -/
lemma allDone_processed {h : Hooks} {save : Bool} {ids : List String}
    {n : Nat} {s : GState} (hn : 0 < n)
    (hr : Reach h save (initState ids n) s) (hd : allDone s) :
    (s.workers.map fun w => (↑w.processed : Multiset String)).sum = ↑ids ∧
      s.queue = [] := by
  have hlen : s.workers.length = n := by
    rw [reach_workers_length hr]; simp [initState]
  have hne : s.workers ≠ [] := by
    intro hnil; rw [hnil] at hlen; simp at hlen; omega
  obtain ⟨w, hw⟩ := List.exists_mem_of_ne_nil _ hne
  have hq : s.queue = [] :=
    reach_doneEmpty hr (initState_doneEmpty ids n) ⟨w, hw, hd w hw⟩
  have hload : load s = ↑ids := by
    rw [reach_load hr, initState_load]
  have hmap : s.workers.map contrib
      = s.workers.map fun w => (↑w.processed : Multiset String) := by
    apply List.map_congr_left
    intro a ha
    simp [contrib, hd a ha]
  rw [load, hq, hmap] at hload
  simp only [Multiset.coe_nil, zero_add] at hload
  exact ⟨hload, hq⟩

/-- C1: for every list of distinct set IDs passed to `process_ids`, in any
complete run of the worker pool (all workers joined, at least one worker),
each set ID has been dequeued and run through the per-task pipeline by
exactly one worker: counted across all workers' processing histories,
every seeded ID occurs exactly once and nothing else occurs. -/
theorem process_ids_each_id_exactly_once (h : Hooks) (save : Bool)
    (ids : List String) (n : Nat) (s : GState)
    (hn : 0 < n) (hnd : ids.Nodup)
    (hr : Reach h save (initState ids n) s) (hd : allDone s) (sid : String) :
    Multiset.count sid
        ((s.workers.map fun w => (↑w.processed : Multiset String)).sum)
      = if sid ∈ ids then 1 else 0 := by
  rw [(allDone_processed hn hr hd).1, Multiset.coe_count]
  by_cases hmem : sid ∈ ids
  · simp [hmem, List.count_eq_one_of_mem hnd hmem]
  · simp [hmem, List.count_eq_zero_of_not_mem hmem]

lemma reach_two_ids_one_worker :
    Reach noFailHooks false (initState ["a", "b"] 1)
      ⟨[], [], [⟨.finished, ["a", "b"]⟩]⟩ :=
  Relation.ReflTransGen.head
    (Step.check_nonempty _ 0 ⟨.atCheck, []⟩ rfl rfl (by simp [initState]))
    (Relation.ReflTransGen.head
      (Step.get_item _ 0 ⟨.atGet, []⟩ "a" ["b"] rfl rfl rfl)
      (Relation.ReflTransGen.head
        (Step.run_body _ 0 ⟨.atBody "a", []⟩ "a" rfl rfl)
        (Relation.ReflTransGen.head
          (Step.check_nonempty _ 0 ⟨.atCheck, ["a"]⟩ rfl rfl (by simp))
          (Relation.ReflTransGen.head
            (Step.get_item _ 0 ⟨.atGet, ["a"]⟩ "b" [] rfl rfl rfl)
            (Relation.ReflTransGen.head
              (Step.run_body _ 0 ⟨.atBody "b", ["a"]⟩ "b" rfl rfl)
              (Relation.ReflTransGen.head
                (Step.check_empty _ 0 ⟨.atCheck, ["a", "b"]⟩ rfl rfl rfl)
                Relation.ReflTransGen.refl))))))

/-- Witness for C1: the concrete two-ID, one-worker run just built
processed "a" exactly once. -/
theorem process_ids_each_id_exactly_once_witness :
    Multiset.count "a"
        ((((⟨[], [], [⟨.finished, ["a", "b"]⟩]⟩ : GState).workers.map
          fun w => (↑w.processed : Multiset String)).sum) : Multiset String)
      = 1 :=
  (process_ids_each_id_exactly_once noFailHooks false ["a", "b"] 1
    ⟨[], [], [⟨.finished, ["a", "b"]⟩]⟩ (by decide) (by decide)
    reach_two_ids_one_worker (by decide) "a").trans (by decide)

lemma reach_deadState :
    Reach noFailHooks false (initState ["a"] 2) deadState :=
  Relation.ReflTransGen.head
    (Step.check_nonempty _ 0 ⟨.atCheck, []⟩ rfl rfl (by decide))
    (Relation.ReflTransGen.head
      (Step.check_nonempty _ 1 ⟨.atCheck, []⟩ rfl rfl (by decide))
      (Relation.ReflTransGen.head
        (Step.get_item _ 0 ⟨.atGet, []⟩ "a" [] rfl rfl rfl)
        (Relation.ReflTransGen.head
          (Step.run_body _ 0 ⟨.atBody "a", []⟩ "a" rfl rfl)
          (Relation.ReflTransGen.head
            (Step.check_empty _ 0 ⟨.atCheck, ["a"]⟩ rfl rfl rfl)
            Relation.ReflTransGen.refl))))

/-- C3 (refuted; the code has the bug, the claim states the intent): with
`set_ids = ["a"]` and `num_workers = 2` there is a reachable state — both
workers observe "non-empty", worker 0 takes the only item and finishes —
in which worker 1 sits at the blocking `set_ids_.get()` of line 63 with
the queue empty.  From that state no step at all is possible (in
particular worker 1 never receives an empty-signal), yet the pool has not
terminated, so the `p.join()` barrier of `process_ids` hangs forever:
`run` does not terminate even though every processing function
terminates. -/
theorem blocking_get_deadlock :
    Reach noFailHooks false (initState ["a"] 2) deadState ∧
    (∀ s', ¬ Step noFailHooks false deadState s') ∧
    ¬ allDone deadState := by
  refine ⟨reach_deadState, ?_, by decide⟩
  intro s' hs
  cases hs with
  | check_nonempty i w hw hst hq => exact hq rfl
  | check_empty i w hw hst hq =>
    rcases i with _ | _ | i <;> simp [deadState] at hw <;> subst hw <;> simp at hst
  | get_item i w x q hw hst hq => simp [deadState] at hq
  | run_body i w sid hw hst =>
    rcases i with _ | _ | i <;> simp [deadState] at hw <;> subst hw <;> simp at hst

lemma process_wrapper_no_fault (h : Hooks) (gf : Nat → Bool) (save : Bool)
    (hgf : ∀ k, gf k = false) :
    ∀ (q : List String) (n : Nat),
      (process_wrapper h gf save q n).tasksRun = q ∧
      (process_wrapper h gf save q n).taskLog = q.map (runTask h save) ∧
      (process_wrapper h gf save q n).broke = false := by
  intro q
  induction q with
  | nil => intro n; exact ⟨rfl, rfl, rfl⟩
  | cons sid rest ih =>
    intro n
    have := ih (n + 1)
    simp [process_wrapper, hgf n, this.1, this.2.1, this.2.2]

/-- C4: an exception in the pipeline of any dequeued set ID never
terminates the worker loop: for any hook behaviour whatsoever (every hook
may raise on every task), as long as the queue retrievals themselves do
not fault, the loop runs the full pipeline for every queued set ID in
order, records a `TaskEffects` entry per task (whose `caught` flags are
the error reports of lines 78 and 85), and exits normally — no exception
from an individual task escapes `process_wrapper`, hence none reaches the
caller of `process_ids`. -/
theorem worker_loop_survives_task_failures (h : Hooks) (gf : Nat → Bool)
    (save : Bool) (q : List String) (hgf : ∀ k, gf k = false) :
    (process_wrapper h gf save q 0).tasksRun = q ∧
    (process_wrapper h gf save q 0).taskLog = q.map (runTask h save) ∧
    (process_wrapper h gf save q 0).broke = false :=
  process_wrapper_no_fault h gf save hgf q 0

/-- Witness for C4: with hooks whose compute step raises on every task,
both queued set IDs are still run through the pipeline and the loop ends
normally. -/
theorem worker_loop_survives_task_failures_witness :
    (process_wrapper computeFailHooks (fun _ => false) false ["a", "b"] 0).tasksRun
        = ["a", "b"] ∧
    (process_wrapper computeFailHooks (fun _ => false) false ["a", "b"] 0).taskLog
        = ["a", "b"].map (runTask computeFailHooks false) ∧
    (process_wrapper computeFailHooks (fun _ => false) false ["a", "b"] 0).broke
        = false :=
  worker_loop_survives_task_failures computeFailHooks (fun _ => false) false
    ["a", "b"] (fun _ => rfl)

lemma process_wrapper_fault (h : Hooks) (gf : Nat → Bool) (save : Bool) :
    ∀ (q : List String) (n k : Nat), k < q.length →
      (∀ j, j < k → gf (n + j) = false) → gf (n + k) = true →
      (process_wrapper h gf save q n).tasksRun = q.take k ∧
      (process_wrapper h gf save q n).broke = true := by
  intro q
  induction q with
  | nil => intro n k hk _ _; simp at hk
  | cons sid rest ih =>
    intro n k hk hbefore hfault
    cases k with
    | zero =>
      have h0 : gf n = true := by simpa using hfault
      simp [process_wrapper, h0]
    | succ k =>
      have h0 : gf n = false := by simpa using hbefore 0 (Nat.succ_pos k)
      have ihh := ih (n + 1) k (by simpa using Nat.lt_of_succ_lt_succ hk)
        (fun j hj => by
          have e : n + 1 + j = n + (j + 1) := by omega
          rw [e]
          exact hbefore (j + 1) (Nat.succ_lt_succ hj))
        (by
          have e : n + 1 + k = n + (k + 1) := by omega
          rw [e]
          exact hfault)
      simp [process_wrapper, h0, ihh.1, ihh.2]

/-- C9: if the `k`-th `set_ids_.get()` of a worker raises (the earlier
ones succeeding), the worker reports the error and `break`s out of its
loop (line 67): only the first `k` queued set IDs are processed, the loop
does not retry, and `process_wrapper` still returns normally (the
exception is consumed by the handler of lines 64-67, so it never reaches
the join barrier of `process_ids`). -/
theorem queue_get_error_breaks_worker (h : Hooks) (gf : Nat → Bool)
    (save : Bool) (q : List String) (k : Nat)
    (hk : k < q.length) (hbefore : ∀ j, j < k → gf j = false)
    (hfault : gf k = true) :
    (process_wrapper h gf save q 0).tasksRun = q.take k ∧
    (process_wrapper h gf save q 0).broke = true :=
  process_wrapper_fault h gf save q 0 k hk
    (fun j hj => by simpa using hbefore j hj) (by simpa using hfault)

/-- Witness for C9: with the second `get` call faulting, only the first of
three set IDs is processed and the worker breaks. -/
theorem queue_get_error_breaks_worker_witness :
    (process_wrapper noFailHooks (fun k => decide (k = 1)) false
        ["a", "b", "c"] 0).tasksRun = ["a", "b", "c"].take 1 ∧
    (process_wrapper noFailHooks (fun k => decide (k = 1)) false
        ["a", "b", "c"] 0).broke = true :=
  queue_get_error_breaks_worker noFailHooks (fun k => decide (k = 1)) false
    ["a", "b", "c"] 1 (by decide)
    (fun j hj => by
      have hj0 : j = 0 := by omega
      subst hj0
      rfl)
    (by decide)

lemma runTask_pushed_eq (h : Hooks) (save : Bool) (sid : String) :
    (runTask h save sid).pushed
      = if save && taskSucceeds h sid then some ((runTask h save sid).res_string)
        else none := by
  cases hb : h.maybe_begin_logging sid with
  | error e => simp [runTask, tryBody, taskSucceeds, hb]
  | ok u =>
    cases hc : h.get_process_function_result sid with
    | error e => simp [runTask, tryBody, taskSucceeds, hb, hc]
    | ok r =>
      cases ha : h.aggregate_process_function_result r with
      | error e => simp [runTask, tryBody, taskSucceeds, hb, hc, ha]
      | ok rs => cases save <;> simp [runTask, tryBody, taskSucceeds, hb, hc, ha]

lemma runTask_pushed_save_false (h : Hooks) (sid : String) :
    (runTask h false sid).pushed = none := by
  simp [runTask_pushed_eq]

lemma runTask_pushed_length (h : Hooks) (sid : String) :
    ((runTask h true sid).pushed).toList.length
      = if taskSucceeds h sid then 1 else 0 := by
  rw [runTask_pushed_eq]
  cases hs : taskSucceeds h sid <;> simp

/-- C5 (refuted): with hooks whose `maybe_begin_logging` raises, the
compute step (`get_process_function_result`) is *not* invoked for the
dequeued set ID "a" — line 70 sits inside the same `try` as line 71, so
the begin-logging exception jumps to the handler of line 78 and the
claim's "the compute step is still invoked" is false at this input. -/
theorem begin_failure_skips_compute_cex :
    (runTask beginFailHooks false "a").computeInvoked = false := by decide

/-- C5 (amended): a failure raised by `maybe_begin_logging` is caught by
the per-task handler (line 78) but aborts steps 2-4 for that set ID: the
compute step is not invoked and nothing is pushed.  The pipeline is not
aborted as a whole: `maybe_stop_logging` still runs in the `finally`
block, and if it returns normally, local persistence receives the empty
row. -/
theorem begin_failure_contained (h : Hooks) (save : Bool) (sid : String)
    (hb : h.maybe_begin_logging sid = .error ()) :
    (runTask h save sid).computeInvoked = false ∧
    (runTask h save sid).bodyCaught = true ∧
    (runTask h save sid).pushed = none ∧
    (runTask h save sid).stopInvoked = true ∧
    (h.maybe_stop_logging sid = .ok () →
      (runTask h save sid).persistInvoked = some "") := by
  refine ⟨?_, ?_, ?_, ?_, ?_⟩
  · simp [runTask, tryBody, hb]
  · simp [runTask, tryBody, hb]
  · simp [runTask, tryBody, hb]
  · simp [runTask, tryBody, finallyBody, hb]
    cases h.maybe_stop_logging sid with
    | error e => rfl
    | ok u => cases h.maybe_save_local_results sid "" <;> rfl
  · intro hs
    simp [runTask, tryBody, finallyBody, hb, hs]
    cases h.maybe_save_local_results sid "" <;> rfl

/-- Witness for C5's amended theorem at the concrete failing hooks. -/
theorem begin_failure_contained_witness :
    (runTask beginFailHooks true "b").computeInvoked = false ∧
    (runTask beginFailHooks true "b").bodyCaught = true ∧
    (runTask beginFailHooks true "b").pushed = none ∧
    (runTask beginFailHooks true "b").stopInvoked = true ∧
    (beginFailHooks.maybe_stop_logging "b" = .ok () →
      (runTask beginFailHooks true "b").persistInvoked = some "") :=
  begin_failure_contained beginFailHooks true "b" rfl

/-- C6 (refuted): with hooks whose `maybe_stop_logging` raises, the
local-persist step (`maybe_save_local_results`) is *not* invoked for set
ID "a" — both calls sit inside the single `try` of lines 80-84, so the
stop-logging exception prevents the persist call, contradicting the
claim's "an exception raised by stop-logging does not prevent
local-persist from being invoked". -/
theorem stop_failure_skips_persist_cex :
    ((runTask stopFailHooks true "a").persistInvoked).isSome = false := by decide

/-- C6 (amended): the failures of the best-effort steps are caught
without re-raising — a begin-logging failure by the steps-1-to-4 handler
of line 78, and stop-logging/local-persist failures by the single shared
handler of line 85 (they are not independent handlers) — and no such
exception removes a result already pushed to the result queue in step 4;
but an exception raised by stop-logging does prevent local-persist from
being invoked for that set ID. -/
theorem finally_failure_contained (h : Hooks) (save : Bool) (sid : String)
    (hstop : h.maybe_stop_logging sid = .error ()) :
    (runTask h save sid).finallyCaught = true ∧
    (runTask h save sid).persistInvoked = none ∧
    (taskSucceeds h sid = true → ((runTask h true sid).pushed).isSome = true) := by
  refine ⟨?_, ?_, ?_⟩
  · simp [runTask, finallyBody, hstop]
  · simp [runTask, finallyBody, hstop]
  · intro hsucc
    rw [runTask_pushed_eq]
    simp [hsucc]

/-- Witness for C6's amended theorem at the concrete failing hooks. -/
theorem finally_failure_contained_witness :
    (runTask stopFailHooks true "c").finallyCaught = true ∧
    (runTask stopFailHooks true "c").persistInvoked = none ∧
    (taskSucceeds stopFailHooks "c" = true →
      ((runTask stopFailHooks true "c").pushed).isSome = true) :=
  finally_failure_contained stopFailHooks true "c" rfl

/-- C7 (refuted): local-persist is *not* invoked "once per set ID
regardless": with hooks whose `maybe_stop_logging` raises, the persist
call for set ID "b" never happens, because stop-logging and local-persist
share the single `try` of lines 80-84. -/
theorem persist_skipped_on_stop_failure_cex :
    ((runTask stopFailHooks false "b").persistInvoked).isSome = false := by decide

/-- C7 (amended): `maybe_stop_logging` is executed on every exit path of
the pipeline (success, or an exception anywhere in steps 1-4, all routes
through the `finally` of line 79); when steps 2-4 failed the local
`res_string` is still the empty sentinel `""`; and provided stop-logging
returns normally, local-persist is invoked exactly once for the set ID,
receiving that `res_string` (the empty sentinel on failure). -/
theorem stop_logging_every_exit_path (h : Hooks) (save : Bool) (sid : String) :
    (runTask h save sid).stopInvoked = true ∧
    ((runTask h save sid).bodyCaught = true → (runTask h save sid).res_string = "") ∧
    (h.maybe_stop_logging sid = .ok () →
      (runTask h save sid).persistInvoked = some ((runTask h save sid).res_string)) := by
  refine ⟨?_, ?_, ?_⟩
  · simp [runTask, finallyBody]
    cases h.maybe_stop_logging sid with
    | error e => rfl
    | ok u => cases h.maybe_save_local_results sid (tryBody h save sid).res_string <;> rfl
  · intro hcaught
    cases hb : h.maybe_begin_logging sid with
    | error e => simp [runTask, tryBody, hb]
    | ok u =>
      cases hc : h.get_process_function_result sid with
      | error e => simp [runTask, tryBody, hb, hc]
      | ok r =>
        cases ha : h.aggregate_process_function_result r with
        | error e => simp [runTask, tryBody, hb, hc, ha]
        | ok rs => simp [runTask, tryBody, hb, hc, ha] at hcaught
  · intro hs
    simp [runTask, finallyBody, hs]
    cases h.maybe_save_local_results sid (tryBody h save sid).res_string <;> rfl

/-- Witness for C7's amended theorem: a task whose compute step raises
still gets its stop-logging call, and local-persist receives the empty
sentinel row. -/
theorem stop_logging_every_exit_path_witness :
    (runTask computeFailHooks false "d").stopInvoked = true ∧
    ((runTask computeFailHooks false "d").bodyCaught = true →
      (runTask computeFailHooks false "d").res_string = "") ∧
    (computeFailHooks.maybe_stop_logging "d" = .ok () →
      (runTask computeFailHooks false "d").persistInvoked
        = some ((runTask computeFailHooks false "d").res_string)) :=
  stop_logging_every_exit_path computeFailHooks false "d"

lemma map_sum_set_same {α M : Type} [AddCancelCommMonoid M] (f : α → M)
    (l : List α) (i : Nat) (a b : α) (hget : l[i]? = some a) (hf : f b = f a) :
    ((l.set i b).map f).sum = (l.map f).sum := by
  have h2 := map_sum_set f l i a b hget
  rw [hf] at h2
  exact add_right_cancel h2

lemma map_sum_set_add {α M : Type} [AddCancelCommMonoid M] (f : α → M)
    (l : List α) (i : Nat) (a b : α) (d : M) (hget : l[i]? = some a)
    (hf : f b = f a + d) :
    ((l.set i b).map f).sum = (l.map f).sum + d := by
  have h2 := map_sum_set f l i a b hget
  rw [hf, add_comm (f a) d, ← add_assoc] at h2
  exact add_right_cancel h2

lemma step_results_true {h : Hooks} {s s' : GState}
    (hs : Step h true s s')
    (hI : s.results.length = Multiset.countP (fun sid => taskSucceeds h sid = true) (processedSum s)) :
    s'.results.length = Multiset.countP (fun sid => taskSucceeds h sid = true) (processedSum s') := by
  cases hs with
  | check_nonempty i w hw hst hq =>
    have hsum : processedSum
        { s with workers := s.workers.set i { w with status := .atGet } }
        = processedSum s :=
      map_sum_set_same _ s.workers i w _ hw rfl
    rw [hsum]; exact hI
  | check_empty i w hw hst hq =>
    have hsum : processedSum
        { s with workers := s.workers.set i { w with status := .finished } }
        = processedSum s :=
      map_sum_set_same _ s.workers i w _ hw rfl
    rw [hsum]; exact hI
  | get_item i w x q hw hst hq =>
    have hsum : processedSum
        { queue := q, results := s.results,
          workers := s.workers.set i { w with status := .atBody x } }
        = processedSum s :=
      map_sum_set_same _ s.workers i w _ hw rfl
    rw [hsum]; exact hI
  | run_body i w sid hw hst =>
    have hsum : processedSum
        { queue := s.queue, results := s.results ++ (runTask h true sid).pushed.toList,
          workers := s.workers.set i ⟨.atCheck, w.processed ++ [sid]⟩ }
        = processedSum s + {sid} := by
      simp only [processedSum]
      exact map_sum_set_add (fun w => (↑w.processed : Multiset String)) s.workers i w
        ⟨.atCheck, w.processed ++ [sid]⟩ {sid} hw
        (by
          show (↑(w.processed ++ [sid]) : Multiset String) = ↑w.processed + {sid}
          rw [← Multiset.coe_singleton, ← Multiset.coe_add])
    rw [hsum, Multiset.countP_add]
    have hsingle : Multiset.countP (fun sid => taskSucceeds h sid = true)
        ({sid} : Multiset String) = if taskSucceeds h sid then 1 else 0 := by
      rw [show ({sid} : Multiset String) = sid ::ₘ 0 from rfl,
        Multiset.countP_cons, Multiset.countP_zero, zero_add]
    simp only [List.length_append, runTask_pushed_length, hsingle, hI]

lemma reach_results_true {h : Hooks} {s s' : GState}
    (hr : Reach h true s s')
    (hI : s.results.length = Multiset.countP (fun sid => taskSucceeds h sid = true) (processedSum s)) :
    s'.results.length = Multiset.countP (fun sid => taskSucceeds h sid = true) (processedSum s') := by
  induction hr with
  | refl => exact hI
  | tail _ hstep ih => exact step_results_true hstep ih

lemma step_results_false {h : Hooks} {s s' : GState}
    (hs : Step h false s s') (hI : s.results = []) : s'.results = [] := by
  cases hs with
  | check_nonempty i w hw hst hq => exact hI
  | check_empty i w hw hst hq => exact hI
  | get_item i w x q hw hst hq => exact hI
  | run_body i w sid hw hst => simp [runTask_pushed_save_false, hI]

lemma reach_results_false {h : Hooks} {s s' : GState}
    (hr : Reach h false s s') (hI : s.results = []) : s'.results = [] := by
  induction hr with
  | refl => exact hI
  | tail _ hstep ih => exact step_results_false hstep ih

/-- C8: a row reaches the result queue only in unified save mode
(`results_` stays empty whenever `save_all_results_` is false), and in
unified mode exactly one row is pushed per set ID whose begin-logging,
compute and aggregate steps all ran to completion: after any complete run
of a non-empty pool, the number of rows in `results_` equals the number
of seeded set IDs whose lines 69-72 succeed. -/
theorem result_channel_row_count (h : Hooks) (ids : List String) (n : Nat) :
    (∀ s, Reach h true (initState ids n) s → allDone s → 0 < n →
        s.results.length = (ids.filter (taskSucceeds h)).length) ∧
    (∀ s, Reach h false (initState ids n) s → s.results = []) := by
  constructor
  · intro s hr hd hn
    have hinit : (initState ids n).results.length
        = Multiset.countP (fun sid => taskSucceeds h sid = true) (processedSum (initState ids n)) := by
      simp [initState, processedSum, List.map_replicate]
    have hinv := reach_results_true hr hinit
    have hsum : processedSum s = ↑ids := (allDone_processed hn hr hd).1
    rw [hinv, hsum, Multiset.coe_countP, List.countP_eq_length_filter]
    congr 1
    simp
  · intro s hr
    exact reach_results_false hr rfl

lemma reach_unified_single :
    Reach noFailHooks true (initState ["a"] 1)
      ⟨[], ["a"], [⟨.finished, ["a"]⟩]⟩ :=
  Relation.ReflTransGen.head
    (Step.check_nonempty _ 0 ⟨.atCheck, []⟩ rfl rfl (by decide))
    (Relation.ReflTransGen.head
      (Step.get_item _ 0 ⟨.atGet, []⟩ "a" [] rfl rfl rfl)
      (Relation.ReflTransGen.head
        (Step.run_body _ 0 ⟨.atBody "a", []⟩ "a" rfl rfl)
        (Relation.ReflTransGen.head
          (Step.check_empty _ 0 ⟨.atCheck, ["a"]⟩ rfl rfl rfl)
          Relation.ReflTransGen.refl)))

/-- Witness for C8: the one-ID unified-mode run ends with exactly one
row in the result queue, and a local-mode state keeps `results_` empty. -/
theorem result_channel_row_count_witness :
    ((⟨[], ["a"], [⟨.finished, ["a"]⟩]⟩ : GState).results.length
        = (["a"].filter (taskSucceeds noFailHooks)).length) ∧
    (initState ["a"] 1).results = [] := by
  constructor
  · exact (result_channel_row_count noFailHooks ["a"] 1).1
      ⟨[], ["a"], [⟨.finished, ["a"]⟩]⟩ reach_unified_single (by decide) (by decide)
  · exact (result_channel_row_count noFailHooks ["a"] 1).2
      (initState ["a"] 1) Relation.ReflTransGen.refl

/-- C10: a default-constructed `IParallelSolver` has `num_workers = 4`,
empty task and result queues, and `save_all_results_ = False`; the only
assignment to the flag is line 98 of `process_ids`, which leaves it
`False` for `results_file = None` and sets it `True` exactly for a
non-None `results_file`. -/
theorem solver_init_defaults :
    (IParallelSolver.init).num_workers = 4 ∧
    (IParallelSolver.init).results_ = [] ∧
    (IParallelSolver.init).set_ids_ = [] ∧
    (IParallelSolver.init).save_all_results_ = false ∧
    ((IParallelSolver.init).setSaveMode none).save_all_results_ = false ∧
    (∀ f : String,
      ((IParallelSolver.init).setSaveMode (some f)).save_all_results_ = true) :=
  ⟨rfl, rfl, rfl, rfl, rfl, fun _ => rfl⟩

/-- C2: in any complete `process_ids` run, unified save mode
(`save_all_results_` as set by line 98) is selected exactly when
`results_file` is not None; with a non-None `results_file` the artifact
written after the join is that file with the column header line followed
by every collected result row (header alone when `final.results` is
empty); with `results_file = None` no unified artifact is written. -/
theorem unified_save_behaviour (h : Hooks) (n : Nat) (ids : List String)
    (rf : Option String) (final : GState)
    (artifact : Option (String × List String))
    (hrun : ProcessIdsRun h n ids rf final artifact) :
    (((IParallelSolver.init n).setSaveMode rf).save_all_results_ = true
        ↔ rf ≠ none) ∧
    (∀ f, rf = some f → artifact = some (f, resultHeader :: final.results)) ∧
    (rf = none → artifact = none) := by
  obtain ⟨-, -, hart⟩ := hrun
  refine ⟨?_, ?_, ?_⟩
  · cases rf <;> simp [IParallelSolver.setSaveMode, IParallelSolver.init]
  · intro f hf
    subst hf
    simpa [maybe_save_results] using hart
  · intro hf
    subst hf
    simpa [maybe_save_results] using hart

/-- Witness for C2: the one-ID unified run with `results_file =
"mock_lc.csv"` produces the artifact with the header line and the single
collected row. -/
theorem unified_save_behaviour_witness :
    (((IParallelSolver.init 1).setSaveMode (some "mock_lc.csv")).save_all_results_
        = true ↔ (some "mock_lc.csv" : Option String) ≠ none) ∧
    (∀ f, (some "mock_lc.csv" : Option String) = some f →
        maybe_save_results (some "mock_lc.csv") ["a"]
          = some (f, resultHeader :: ["a"])) ∧
    ((some "mock_lc.csv" : Option String) = none →
        maybe_save_results (some "mock_lc.csv") ["a"] = none) :=
  unified_save_behaviour noFailHooks 1 ["a"] (some "mock_lc.csv")
    ⟨[], ["a"], [⟨.finished, ["a"]⟩]⟩
    (maybe_save_results (some "mock_lc.csv") ["a"])
    ⟨reach_unified_single, by decide, rfl⟩
